import Mathlib

/-!
Shallow embedding of the resume-helper LLM-response recovery pipeline.

The Python source works on `str` values; we embed them as `List Char`.
Each definition carries a reference to the source function it translates.
-/

namespace ResumeHelper

/-- Convert a Lean string literal to the `List Char` representation used throughout. -/
def pyOf (s : String) : List Char := s.data

/-- Characters removed by Python `str.strip()` (ASCII whitespace). -/
def isPyWs (c : Char) : Bool :=
  c == ' ' || c == '\t' || c == '\n' || c == '\r' || c == '\x0b' || c == '\x0c'

/-- Python `str.strip()`: drop leading and trailing whitespace. -/
def pyStrip (s : List Char) : List Char :=
  ((s.dropWhile isPyWs).reverse.dropWhile isPyWs).reverse

/-- `leads sub s` is true when `sub` is an initial segment of `s`
(helper for modelling Python substring search). -/
def leads : List Char → List Char → Bool
  | [], _ => true
  | _ :: _, [] => false
  | a :: as, b :: bs => a == b && leads as bs

/-- Index of the first occurrence of `sub` in `s`, if any (Python `str.find` when found). -/
def subFind (sub : List Char) : List Char → Option Nat
  | [] => if sub.isEmpty then some 0 else none
  | cs@(_ :: rest) =>
    if leads sub cs then some 0 else (subFind sub rest).map (· + 1)

/-- Python `sub in s` substring test. -/
def pyContains (s sub : List Char) : Bool := (subFind sub s).isSome

/-- Python `s.find(sub, start)`, returning -1 when absent. -/
def pyFindFromI (s sub : List Char) (start : Nat) : Int :=
  match subFind sub (s.drop start) with
  | some k => ((k + start : Nat) : Int)
  | none => -1

/-- Index of the first occurrence of character `c` in `s`. -/
def findCharIdx (c : Char) : List Char → Option Nat
  | [] => none
  | a :: rest => if a == c then some 0 else (findCharIdx c rest).map (· + 1)

/-- Python `s.find(c)` for a single character, returning -1 when absent. -/
def pyFindCharI (s : List Char) (c : Char) : Int :=
  match findCharIdx c s with
  | some n => (n : Int)
  | none => -1

/-- Python `s.rfind(c)` for a single character, returning -1 when absent. -/
def pyRFindCharI (s : List Char) (c : Char) : Int :=
  match findCharIdx c s.reverse with
  | some n => ((s.length : Int) - 1 - n)
  | none => -1

/-- The opening sentinel reasoning marker. -/
def thinkOpen : List Char := pyOf "<think>"

/-- The closing sentinel reasoning marker. -/
def thinkClose : List Char := pyOf "</think>"

/-- The json code fence opener. -/
def fenceJson : List Char := pyOf "```json"

/-- A bare code fence. -/
def fence : List Char := pyOf "```"

/-- Think-tag removal step of `ResumeParser._preprocess_llm_response`
(pdf_parser.py lines 146-149, identically lines 199-204, matcher.py 119-124,
generator.py 120-125):
if both markers occur anywhere, cut from the first opening marker to the end of
the first closing marker found from there, and strip the trailing part.
`find` returns -1 on failure, hence the `Int` arithmetic `find + len` below. -/
def stripThink (s : List Char) : List Char :=
  if pyContains s thinkOpen && pyContains s thinkClose then
    let ts : Nat := (subFind thinkOpen s).getD 0
    let te : Int := pyFindFromI s thinkClose ts + 8
    s.take ts ++ pyStrip (s.drop te.toNat)
  else s

/-- Everything after the first occurrence of `sub` (the whole of `s` when absent). -/
def afterFirst (sub s : List Char) : List Char :=
  match subFind sub s with
  | some i => s.drop (i + sub.length)
  | none => s

/-- Everything before the first occurrence of `sub` (the whole of `s` when absent). -/
def beforeFirst (sub s : List Char) : List Char :=
  match subFind sub s with
  | some i => s.take i
  | none => s

/-- Code fence extraction step (pdf_parser.py lines 152-155, job_analyzer.py 118-121):
`result.split("```json")[1].split("```")[0]`, else the same with a bare fence. -/
def extractFence (s : List Char) : List Char :=
  if pyContains s fenceJson then beforeFirst fence (afterFirst fenceJson s)
  else if pyContains s fence then beforeFirst fence (afterFirst fence s)
  else s

/-- The brace span `result[json_start:json_end]` when
`json_start >= 0 and json_end > json_start` (with `json_end = rfind + 1`), else none. -/
def braceSpan (s : List Char) : Option (List Char) :=
  let js : Int := pyFindCharI s '{'
  let je : Int := pyRFindCharI s '}' + 1
  if js ≥ 0 ∧ je > js then some ((s.take je.toNat).drop js.toNat) else none

/-- Brace slicing step of `_preprocess_llm_response` (pdf_parser.py lines 158-162):
slice to the span when found, otherwise leave the text unchanged. -/
def sliceBraces (s : List Char) : List Char :=
  (braceSpan s).getD s

/-- `ResumeParser._preprocess_llm_response` (pdf_parser.py lines 133-164):
strip, remove think tags, extract the code fence, slice to braces, strip. -/
def preprocessLlmResponse (raw : List Char) : List Char :=
  pyStrip (sliceBraces (extractFence (stripThink (pyStrip raw))))

example : stripThink (pyOf "a<think>x</think> b") = pyOf "ab" := by decide

example :
    preprocessLlmResponse (pyOf "<think>a</think><think>b</think>")
      = pyOf "<think>b</think>" := by decide

/-! ## JSON values and a model of Python `json.loads` -/

/-- JSON values as produced by Python `json.loads`:
objects become dicts (here: key-unique association lists, later binding wins),
arrays become lists, strings stay strings; numbers are restricted to integers,
which covers every number appearing in this development. -/
inductive Json where
  | null
  | bool (b : Bool)
  | num (n : Int)
  | str (s : List Char)
  | arr (elems : List Json)
  | obj (members : List (List Char × Json))

/-- Is the value a JSON array? -/
def Json.isArr : Json → Bool
  | .arr _ => true
  | _ => false

/-- Whitespace skipped by the JSON grammar. -/
def jsonWs (c : Char) : Bool := c == ' ' || c == '\t' || c == '\n' || c == '\r'

/-- Skip JSON whitespace. -/
def skipWs (cs : List Char) : List Char := cs.dropWhile jsonWs

/-- Python dict lookup on the association-list representation. -/
def dictGet : List (List Char × Json) → List Char → Option Json
  | [], _ => none
  | (k0, v0) :: rest, k => if k0 == k then some v0 else dictGet rest k

/-- Python dict assignment: overwrite an existing binding or append a new one,
so that later bindings win as in `json.loads` with duplicate keys. -/
def dictInsert (kvs : List (List Char × Json)) (k : List Char) (v : Json) :
    List (List Char × Json) :=
  match kvs with
  | [] => [(k, v)]
  | (k0, v0) :: rest =>
    if k0 == k then (k0, v) :: rest else (k0, v0) :: dictInsert rest k v

/-- Parse the body of a JSON string after the opening quote, handling the
single-character escapes; unicode escapes are out of scope of this model. -/
def parseStrBody : List Char → Option (List Char × List Char)
  | [] => none
  | '"' :: rest => some ([], rest)
  | '\\' :: e :: rest =>
    match (match e with
      | '"' => some '"'
      | '\\' => some '\\'
      | '/' => some '/'
      | 'n' => some '\n'
      | 't' => some '\t'
      | 'r' => some '\r'
      | 'b' => some '\x08'
      | 'f' => some '\x0c'
      | _ => none) with
    | some c => (parseStrBody rest).map (fun p => (c :: p.1, p.2))
    | none => none
  | c :: rest => (parseStrBody rest).map (fun p => (c :: p.1, p.2))

/-- Read a run of decimal digits, accumulating their value. -/
def digitsToNat (acc : Nat) : List Char → Nat × List Char
  | [] => (acc, [])
  | c :: rest =>
    if c.isDigit then digitsToNat (acc * 10 + (c.toNat - 48)) rest
    else (acc, c :: rest)

/-- Parse a JSON integer (optional minus sign followed by digits). -/
def parseNum : List Char → Option (Int × List Char)
  | '-' :: rest =>
    match rest with
    | c :: _ =>
      if c.isDigit then
        let p := digitsToNat 0 rest
        some (-(p.1 : Int), p.2)
      else none
    | [] => none
  | cs@(c :: _) =>
    if c.isDigit then
      let p := digitsToNat 0 cs
      some ((p.1 : Int), p.2)
    else none
  | [] => none

mutual

/-- Parse one JSON value (fuel-indexed recursive descent). -/
def parseVal : Nat → List Char → Option (Json × List Char)
  | 0, _ => none
  | fuel + 1, cs =>
    match skipWs cs with
    | [] => none
    | '{' :: rest => parseObjBody fuel rest
    | '[' :: rest => parseArrBody fuel rest
    | '"' :: rest => (parseStrBody rest).map (fun p => (Json.str p.1, p.2))
    | cs2 =>
      if leads (pyOf "true") cs2 then some (Json.bool true, cs2.drop 4)
      else if leads (pyOf "false") cs2 then some (Json.bool false, cs2.drop 5)
      else if leads (pyOf "null") cs2 then some (Json.null, cs2.drop 4)
      else (parseNum cs2).map (fun p => (Json.num p.1, p.2))

/-- Parse the members of a JSON object after the opening brace. -/
def parseObjBody : Nat → List Char → Option (Json × List Char)
  | 0, _ => none
  | fuel + 1, cs =>
    match skipWs cs with
    | '}' :: rest => some (Json.obj [], rest)
    | cs2 => parseMembers fuel cs2 []

/-- Parse one or more `"key": value` members separated by commas. -/
def parseMembers : Nat → List Char → List (List Char × Json) →
    Option (Json × List Char)
  | 0, _, _ => none
  | fuel + 1, cs, acc =>
    match skipWs cs with
    | '"' :: rest =>
      match parseStrBody rest with
      | some (k, r1) =>
        match skipWs r1 with
        | ':' :: r2 =>
          match parseVal fuel r2 with
          | some (v, r3) =>
            match skipWs r3 with
            | ',' :: r4 => parseMembers fuel r4 (dictInsert acc k v)
            | '}' :: r4 => some (Json.obj (dictInsert acc k v), r4)
            | _ => none
          | none => none
        | _ => none
      | none => none
    | _ => none

/-- Parse the elements of a JSON array after the opening bracket. -/
def parseArrBody : Nat → List Char → Option (Json × List Char)
  | 0, _ => none
  | fuel + 1, cs =>
    match skipWs cs with
    | ']' :: rest => some (Json.arr [], rest)
    | cs2 => parseElems fuel cs2 []

/-- Parse one or more array elements separated by commas. -/
def parseElems : Nat → List Char → List Json → Option (Json × List Char)
  | 0, _, _ => none
  | fuel + 1, cs, acc =>
    match parseVal fuel cs with
    | some (v, r) =>
      match skipWs r with
      | ',' :: r2 => parseElems fuel r2 (acc ++ [v])
      | ']' :: r2 => some (Json.arr (acc ++ [v]), r2)
      | _ => none
    | none => none

end

/-- Exception classes relevant to the pipeline's control flow. -/
inductive PyExc where
  | jsonDecodeError
  | validationError
  | outputParserError
  | attributeError
  deriving DecidableEq

/-- Models Python `json.loads` on the candidate substring (restricted to
integer numerals and without unicode escapes, which covers this development):
a full parse yields the value, anything else raises `json.JSONDecodeError`. -/
def pyJsonLoads (s : List Char) : Except PyExc Json :=
  match parseVal (s.length + 1) s with
  | some (v, rest) => if skipWs rest = [] then .ok v else .error .jsonDecodeError
  | none => .error .jsonDecodeError

example :
    (pyJsonLoads (pyOf "\x7b\"keywords\": \"Python\"\x7d")).isOk = true := by decide

/-! ## The extraction schemas and their Pydantic validation -/

/-- `JobRequirements` (responses.py lines 12-38): six `List[str]` fields, each
defaulting to the empty list. -/
structure JobRequirements where
  required_skills : List (List Char) := []
  preferred_skills : List (List Char) := []
  required_experience : List (List Char) := []
  required_education : List (List Char) := []
  responsibilities : List (List Char) := []
  keywords : List (List Char) := []
  deriving DecidableEq

/-- The declared field names of `JobRequirements`, in declaration order. -/
def jobRequirementsFields : List (List Char) :=
  [pyOf "required_skills", pyOf "preferred_skills", pyOf "required_experience",
   pyOf "required_education", pyOf "responsibilities", pyOf "keywords"]

/-- Accept a list of JSON strings, element-wise. -/
def strItems : List Json → Option (List (List Char))
  | [] => some []
  | Json.str s :: rest => (strItems rest).map (s :: ·)
  | _ => none

/-- Pydantic v2 validation of a `List[str]` field value: a JSON array whose
elements are all strings; any other shape (bare string, number, object, null,
or a list with non-string elements) is rejected. -/
def asStrList : Json → Option (List (List Char))
  | Json.arr xs => strItems xs
  | _ => none

/-- One declared `List[str]` field validates when absent or a string list. -/
def fieldOk (kvs : List (List Char × Json)) (f : List Char) : Bool :=
  match dictGet kvs f with
  | none => true
  | some v => (asStrList v).isSome

/-- The value a declared `List[str]` field receives: its declared default `[]`
when absent, otherwise the validated string list. -/
def fieldVal (kvs : List (List Char × Json)) (f : List Char) : List (List Char) :=
  match dictGet kvs f with
  | none => []
  | some v => (asStrList v).getD []

/-- Models `JobRequirements(**data)` under Pydantic v2: every declared field
must validate or the whole construction raises `ValidationError`; absent fields
take their declared defaults; unknown keys are ignored. -/
def validateJobRequirements (kvs : List (List Char × Json)) :
    Except PyExc JobRequirements :=
  if jobRequirementsFields.all (fieldOk kvs) then
    .ok { required_skills := fieldVal kvs (pyOf "required_skills")
          preferred_skills := fieldVal kvs (pyOf "preferred_skills")
          required_experience := fieldVal kvs (pyOf "required_experience")
          required_education := fieldVal kvs (pyOf "required_education")
          responsibilities := fieldVal kvs (pyOf "responsibilities")
          keywords := fieldVal kvs (pyOf "keywords") }
  else .error .validationError

/-- The all-defaults `JobRequirements()`. -/
def emptyJobRequirements : JobRequirements := {}

/-- Project a `JobRequirements` onto a declared field name (helper for stating
per-field properties; unknown names give `[]`). -/
def getJRField (r : JobRequirements) (f : List Char) : List (List Char) :=
  if f = pyOf "required_skills" then r.required_skills
  else if f = pyOf "preferred_skills" then r.preferred_skills
  else if f = pyOf "required_experience" then r.required_experience
  else if f = pyOf "required_education" then r.required_education
  else if f = pyOf "responsibilities" then r.responsibilities
  else if f = pyOf "keywords" then r.keywords
  else []

/-- The `JobRequirements(**data)` call inside the enclosing try of
`JobAnalyzer._fallback_parse` (job_analyzer.py line 132): a `ValidationError`
is caught by the handler at line 137, which returns `JobRequirements()`. -/
def parseJobRequirementsData (kvs : List (List Char × Json)) : JobRequirements :=
  match validateJobRequirements kvs with
  | .ok r => r
  | .error _ => emptyJobRequirements

/-- `JobAnalyzer._fallback_parse` (job_analyzer.py lines 97-139) applied to the
fallback backend response: strip, cut code fences, find the brace span, parse
it as JSON and validate; every failure is caught and yields `JobRequirements()`.
(This cleaning has no think-tag step, unlike the resume parser's.) -/
def jobAnalyzerFallbackParse (resp : List Char) : JobRequirements :=
  let r := extractFence (pyStrip resp)
  match braceSpan r with
  | some jsonStr =>
    match pyJsonLoads jsonStr with
    | .ok (Json.obj kvs) => parseJobRequirementsData kvs
    | _ => emptyJobRequirements
  | none => emptyJobRequirements

/-- Models the structured attempt `prompt | llm | PydanticOutputParser`
(job_analyzer.py lines 68-76): langchain extracts a fenced JSON payload from
the raw text, parses and validates it, raising on any failure. -/
def pydanticParseJobRequirements (raw : List Char) : Except PyExc JobRequirements :=
  match pyJsonLoads (pyStrip (extractFence (pyStrip raw))) with
  | .ok (Json.obj kvs) => validateJobRequirements kvs
  | _ => .error .outputParserError

/-- `JobAnalyzer.analyze_job_description` (job_analyzer.py lines 54-85).
`resp1`/`resp2` are the backend texts for the structured and the fallback
attempt; the second component counts backend invocations. Empty or
whitespace-only text returns `JobRequirements()` before any backend call. -/
def analyzeJobDescription (text resp1 resp2 : List Char) : JobRequirements × Nat :=
  if text.all isPyWs then (emptyJobRequirements, 0)
  else
    match pydanticParseJobRequirements resp1 with
    | .ok r => (r, 1)
    | .error _ => (jobAnalyzerFallbackParse resp2, 2)

/-- `ResumeSection` (responses.py lines 54-88): eight `Optional[str]` fields
defaulting to `None`. -/
structure ResumeSection where
  contact_information : Option (List Char) := none
  summary : Option (List Char) := none
  education : Option (List Char) := none
  experience : Option (List Char) := none
  skills : Option (List Char) := none
  projects : Option (List Char) := none
  certifications : Option (List Char) := none
  additional : Option (List Char) := none
  deriving DecidableEq

/-- The declared field names of `ResumeSection`. -/
def resumeSectionFields : List (List Char) :=
  [pyOf "contact_information", pyOf "summary", pyOf "education",
   pyOf "experience", pyOf "skills", pyOf "projects",
   pyOf "certifications", pyOf "additional"]

/-- Pydantic v2 validation of an `Optional[str]` field value: a string or null. -/
def asOptStr : Json → Option (Option (List Char))
  | Json.str s => some (some s)
  | Json.null => some none
  | _ => none

/-- One declared `Optional[str]` field validates when absent, a string, or null. -/
def rsFieldOk (kvs : List (List Char × Json)) (f : List Char) : Bool :=
  match dictGet kvs f with
  | none => true
  | some v => (asOptStr v).isSome

/-- The value a declared `Optional[str]` field receives. -/
def rsFieldVal (kvs : List (List Char × Json)) (f : List Char) : Option (List Char) :=
  match dictGet kvs f with
  | none => none
  | some v => (asOptStr v).getD none

/-- Models `ResumeSection(**data)` under Pydantic v2 (same regime as
`validateJobRequirements`). -/
def validateResumeSection (kvs : List (List Char × Json)) :
    Except PyExc ResumeSection :=
  if resumeSectionFields.all (rsFieldOk kvs) then
    .ok { contact_information := rsFieldVal kvs (pyOf "contact_information")
          summary := rsFieldVal kvs (pyOf "summary")
          education := rsFieldVal kvs (pyOf "education")
          experience := rsFieldVal kvs (pyOf "experience")
          skills := rsFieldVal kvs (pyOf "skills")
          projects := rsFieldVal kvs (pyOf "projects")
          certifications := rsFieldVal kvs (pyOf "certifications")
          additional := rsFieldVal kvs (pyOf "additional") }
  else .error .validationError

/-- `ResumeParser._fallback_parse` (pdf_parser.py lines 167-230): clean the
fallback response (strip, think tags, fences, brace span), parse and validate.
Both failure branches call `self._basic_section_identification`, a method that
is defined nowhere in `ResumeParser`, so they raise `AttributeError`: the call
at line 224 raises inside the try, the handler at line 227 catches it, and the
second call at line 229 raises out of the handler and propagates. -/
def parserFallbackParse (resp : List Char) : Except PyExc ResumeSection :=
  let r := extractFence (stripThink (pyStrip resp))
  match braceSpan r with
  | some jsonStr =>
    match pyJsonLoads jsonStr with
    | .ok (Json.obj kvs) =>
      match validateResumeSection kvs with
      | .ok sec => .ok sec
      | .error _ => .error .attributeError
    | _ => .error .attributeError
  | none => .error .attributeError

/-- `ResumeParser.identify_sections` (pdf_parser.py lines 106-131): invoke the
backend (no empty-text guard exists on this path), preprocess the raw response,
parse it with the Pydantic output parser; on any failure fall back to
`_fallback_parse`, which invokes the backend again. `_text` is used only for
prompt formatting; the second component counts backend invocations. -/
def identifySections (_text resp1 resp2 : List Char) :
    Except PyExc ResumeSection × Nat :=
  match (match pyJsonLoads (preprocessLlmResponse resp1) with
    | .ok (Json.obj kvs) => validateResumeSection kvs
    | _ => (.error .outputParserError : Except PyExc ResumeSection)) with
  | .ok sec => (.ok sec, 1)
  | .error _ => (parserFallbackParse resp2, 2)

/-! ## Keyword matching, recommendation prioritization, resume editing -/

/-- Python `str.lower()` (ASCII model). -/
def pyLower (s : List Char) : List Char := s.map Char.toLower

/-- The floor of a rational, computed by floor division of numerator by
denominator (kept kernel-computable for concrete evaluation). -/
def ratFloor (q : ℚ) : ℤ := Int.fdiv q.num (q.den : ℤ)

/-- Python `round(x, 1)` modelled exactly on rationals: round half to even at
one decimal place. With `y = 10 * q`, `n = floor y` and fractional part
`(y.num - n * y.den) / y.den`, the fraction is compared against one half by
cross-multiplication, keeping every step kernel-computable. -/
def pyRound1 (q : ℚ) : ℚ :=
  let y : ℚ := 10 * q
  let n : ℤ := ratFloor y
  let fracNum : ℤ := y.num - n * (y.den : ℤ)
  let r : ℤ :=
    if (y.den : ℤ) < 2 * fracNum then n + 1
    else if 2 * fracNum < (y.den : ℤ) then n
    else if n % 2 = 0 then n else n + 1
  (r : ℚ) / 10

/-- The dictionary returned by `calculate_keyword_match`. -/
structure KeywordMatchResult where
  matched_keywords : List (List Char)
  missing_keywords : List (List Char)
  keyword_match_score : ℚ
  deriving DecidableEq

/-- `ResumeMatcher.calculate_keyword_match` (matcher.py lines 264-288):
lowercase the resume text, a keyword matches when its lowercase form is a
substring, and the score is `matched / total * 100` rounded to one decimal,
or `0` for an empty keyword list. -/
def calculateKeywordMatch (resumeText : List Char) (keywords : List (List Char)) :
    KeywordMatchResult :=
  let rt := pyLower resumeText
  let matched := keywords.filter (fun k => pyContains rt (pyLower k))
  let pct : ℚ :=
    if keywords.isEmpty then 0
    else ((matched.length : ℚ) / (keywords.length : ℚ)) * 100
  { matched_keywords := matched
    missing_keywords := keywords.filter (fun k => !(pyContains rt (pyLower k)))
    keyword_match_score := pyRound1 pct }

/-- One entry of the `recommendations` list: a dict whose `priority` key may be
absent (`x.get("priority", 0)` supplies 0); `tag` stands for the rest of the
dict's content, which the sort never inspects. -/
structure RecItem where
  priority : Option Int
  tag : Nat
  deriving DecidableEq

/-- The sort key `x.get("priority", 0)`. -/
def recKey (x : RecItem) : Int := x.priority.getD 0

/-- Descending comparison on the sort key. -/
def recGE (a b : RecItem) : Prop := recKey b ≤ recKey a

instance : DecidableRel recGE := fun a b => Int.decLe (recKey b) (recKey a)

instance : IsTotal RecItem recGE := ⟨fun a b => Int.le_total (recKey b) (recKey a)⟩

instance : IsTrans RecItem recGE := ⟨fun _ _ _ h1 h2 => le_trans h2 h1⟩

/-- `RecommendationGenerator.prioritize_recommendations` (generator.py lines
224-240) applied to the recommendations list:
`sorted(recs, key=lambda x: x.get("priority", 0), reverse=True)`, a stable
descending sort, modelled by insertion sort with the descending relation. -/
def prioritizeRecommendations (recs : List RecItem) : List RecItem :=
  List.insertionSort recGE recs

/-- `EditableResumeSection` (editor.py lines 175-196), omitting the wall-clock
`last_edited` timestamp, which `add_section` never touches. -/
structure EditableResumeSection where
  content : List Char
  original_content : Option (List Char) := none
  css_class : Option (List Char) := none
  edit_history : List (List Char) := []
  deriving DecidableEq

/-- `EditableResume` (editor.py lines 264-303): the raw text and the dict of
sections, embedded as a key-unique association list in insertion order. -/
structure EditableResume where
  raw_text : List Char
  sections : List (List Char × EditableResumeSection)
  deriving DecidableEq

/-- Python `name in self.sections` dict membership. -/
def hasSection (r : EditableResume) (name : List Char) : Bool :=
  (r.sections.find? (fun p => p.1 == name)).isSome

/-- `EditableResume.add_section` (editor.py lines 305-314): only when the name
is not yet present, insert a fresh section with `original_content = content`
and, when a truthy `css_class` is given, that class. -/
def addSection (r : EditableResume) (name content : List Char)
    (cssClass : Option (List Char)) : EditableResume :=
  if hasSection r name then r
  else
    let sec : EditableResumeSection :=
      { content := content, original_content := some content }
    let sec :=
      match cssClass with
      | some c => if c.isEmpty then sec else { sec with css_class := some c }
      | none => sec
    { r with sections := r.sections ++ [(name, sec)] }

/-! ## Helper lemmas -/

/-- Every projection of `JobRequirements()` is the empty list. -/
theorem getJRField_empty (f : List Char) : getJRField emptyJobRequirements f = [] := by
  unfold getJRField emptyJobRequirements
  split_ifs <;> rfl

/-- Filtering the parsed object down to the declared keys does not change any
declared field lookup. -/
theorem dictGet_filter_declared (kvs : List (List Char × Json)) (f : List Char)
    (hf : f ∈ jobRequirementsFields) :
    dictGet (kvs.filter (fun p => decide (p.1 ∈ jobRequirementsFields))) f
      = dictGet kvs f := by
  induction kvs with
  | nil => rfl
  | cons hd tl ih =>
    obtain ⟨k, v⟩ := hd
    by_cases hk : k ∈ jobRequirementsFields
    · by_cases he : k = f
      · subst he
        simp [List.filter_cons, hk, dictGet]
      · have hbe : (k == f) = false := by simpa using he
        simp [List.filter_cons, hk, dictGet, hbe, ih]
    · have he : k ≠ f := fun h => hk (h ▸ hf)
      have hbe : (k == f) = false := by simpa using he
      simp [List.filter_cons, hk, dictGet, hbe, ih]

/-- Pointwise-equal predicates give equal `all` over a list. -/
theorem all_congr_mem {l : List (List Char)} {p q : List Char → Bool}
    (h : ∀ x ∈ l, p x = q x) : l.all p = l.all q := by
  induction l with
  | nil => rfl
  | cons a as ih =>
    simp only [List.all_cons]
    rw [h a (by simp), ih (fun x hx => h x (by simp [hx]))]

/-- A single invalid declared field makes the whole Pydantic construction fail,
so the catching fallback returns the all-empty default object. -/
theorem parse_all_empty_of_bad_field (kvs : List (List Char × Json))
    (f : List Char) (hf : f ∈ jobRequirementsFields)
    (hbad : fieldOk kvs f = false) :
    parseJobRequirementsData kvs = emptyJobRequirements := by
  have hall : jobRequirementsFields.all (fieldOk kvs) = false :=
    List.all_eq_false.mpr ⟨f, hf, by simp [hbad]⟩
  simp [parseJobRequirementsData, validateJobRequirements, hall]

/-- Projecting the successfully validated object onto a declared field name
gives that field's computed value. -/
theorem getJRField_build (kvs : List (List Char × Json)) (f : List Char)
    (hf : f ∈ jobRequirementsFields) :
    getJRField
      { required_skills := fieldVal kvs (pyOf "required_skills")
        preferred_skills := fieldVal kvs (pyOf "preferred_skills")
        required_experience := fieldVal kvs (pyOf "required_experience")
        required_education := fieldVal kvs (pyOf "required_education")
        responsibilities := fieldVal kvs (pyOf "responsibilities")
        keywords := fieldVal kvs (pyOf "keywords") } f
      = fieldVal kvs f := by
  simp only [jobRequirementsFields, List.mem_cons, List.not_mem_nil, or_false] at hf
  rcases hf with rfl | rfl | rfl | rfl | rfl | rfl <;> rfl

/-! ## C10: add_section is a no-op when the section name already exists -/

/-- C10: for an `EditableResume` whose sections map already contains the given
name, `add_section` changes nothing: the whole resume (hence the existing
section's content, original content, css class, edit history, and all other
sections) is returned unchanged. -/
theorem add_section_existing_noop (r : EditableResume) (name content : List Char)
    (cssClass : Option (List Char)) (h : hasSection r name = true) :
    addSection r name content cssClass = r := by
  simp [addSection, h]

/-- Witness for C10 at a concrete resume with an existing Skills section. -/
theorem add_section_existing_noop_witness :
    addSection
      { raw_text := pyOf "raw",
        sections := [(pyOf "Skills",
          { content := pyOf "Python", original_content := some (pyOf "Python"),
            css_class := none, edit_history := [pyOf "h1"] })] }
      (pyOf "Skills") (pyOf "new content") (some (pyOf "resume-skills"))
      =
      { raw_text := pyOf "raw",
        sections := [(pyOf "Skills",
          { content := pyOf "Python", original_content := some (pyOf "Python"),
            css_class := none, edit_history := [pyOf "h1"] })] } :=
  add_section_existing_noop _ _ _ _ (by decide)

/-! ## C9: prioritize_recommendations is a stable descending sort -/

/-- C9: `prioritize_recommendations` returns the same multiset of
recommendations ordered by the numeric priority key in descending order; the
sort is stable (for each priority value, the sublist of items carrying it is
exactly the input's, in input order); and the list with priorities `[3, 9, 1]`
sorts to `[9, 3, 1]`. -/
theorem prioritize_recommendations_spec (l : List RecItem) :
    (prioritizeRecommendations l).Perm l
    ∧ (prioritizeRecommendations l).Pairwise (fun a b => recKey b ≤ recKey a)
    ∧ (∀ p : Int, (prioritizeRecommendations l).filter (fun x => recKey x == p)
        = l.filter (fun x => recKey x == p))
    ∧ (prioritizeRecommendations
        [⟨some 3, 0⟩, ⟨some 9, 1⟩, ⟨some 1, 2⟩]).map recKey = [9, 3, 1] := by
  refine ⟨List.perm_insertionSort recGE l, List.sorted_insertionSort recGE l,
    ?_, by decide⟩
  intro p
  have hfix : (l.filter (fun x => recKey x == p)).filter (fun x => recKey x == p)
      = l.filter (fun x => recKey x == p) :=
    List.filter_eq_self.mpr (fun a ha => (List.mem_filter.mp ha).2)
  have hsub : List.Sublist (l.filter (fun x => recKey x == p))
      (prioritizeRecommendations l) := by
    apply List.sublist_insertionSort
    · apply List.pairwise_of_forall_mem_list
      intro a ha b hb
      have ha2 : recKey a = p := by simpa using (List.mem_filter.mp ha).2
      have hb2 : recKey b = p := by simpa using (List.mem_filter.mp hb).2
      show recKey b ≤ recKey a
      rw [ha2, hb2]
    · exact List.filter_sublist l
  have hsub2 : List.Sublist (l.filter (fun x => recKey x == p))
      ((prioritizeRecommendations l).filter (fun x => recKey x == p)) := by
    have := hsub.filter (fun x => recKey x == p)
    rwa [hfix] at this
  have hlen : (l.filter (fun x => recKey x == p)).length
      = ((prioritizeRecommendations l).filter (fun x => recKey x == p)).length :=
    (((List.perm_insertionSort recGE l).filter (fun x => recKey x == p)).length_eq).symm
  exact (hsub2.eq_of_length hlen).symm

/-! ## C8: keyword matching and score -/

/-- C8: `calculate_keyword_match` classifies a keyword as matched exactly when
its lowercase form is a substring of the lowercased resume text, and the
returned score equals matched-count divided by total count times 100 rounded to
one decimal place, with score 0 (and no division error) for an empty list. -/
theorem calculate_keyword_match_spec (text : List Char) (keys : List (List Char)) :
    (∀ k, k ∈ (calculateKeywordMatch text keys).matched_keywords ↔
        (k ∈ keys ∧ pyContains (pyLower text) (pyLower k) = true))
    ∧ (calculateKeywordMatch text keys).keyword_match_score =
        (if keys = [] then 0 else
          pyRound1 ((((calculateKeywordMatch text keys).matched_keywords.length : ℚ)
            / (keys.length : ℚ)) * 100)) := by
  constructor
  · intro k
    simp [calculateKeywordMatch, List.mem_filter]
  · by_cases h : keys = []
    · subst h
      have h0 : pyRound1 0 = 0 := by norm_num [pyRound1, ratFloor]
      simpa [calculateKeywordMatch] using h0
    · cases keys with
      | nil => exact absurd rfl h
      | cons a as => simp [calculateKeywordMatch]

/-! ## C4: behaviour of the entry points on empty or whitespace-only text -/

/-- C4 counterexample: the claim fails for `identify_sections`, which invokes
the backend even when the resume text is empty (there is no empty-text guard
on that path), so the backend call count is 1, not 0. -/
theorem identify_sections_empty_text_calls_backend :
    ¬ ((identifySections [] (pyOf "\x7b\x7d") (pyOf "anything")).2 = 0) := by
  decide

/-- C4 amended: the job analyzer entry point does short-circuit: on empty or
whitespace-only job description text it returns `JobRequirements()` with zero
backend invocations. -/
theorem analyze_job_description_blank_text_no_backend
    (text resp1 resp2 : List Char) (h : text.all isPyWs = true) :
    analyzeJobDescription text resp1 resp2 = (emptyJobRequirements, 0) := by
  simp [analyzeJobDescription, h]

/-- Witness for the amended C4 at whitespace-only text. -/
theorem analyze_job_description_blank_text_no_backend_witness :
    analyzeJobDescription (pyOf "  ") (pyOf "resp one") (pyOf "resp two")
      = (emptyJobRequirements, 0) :=
  analyze_job_description_blank_text_no_backend _ _ _ (by decide)

/-! ## C3: schema repair is not field-atomic -/

/-- C3 counterexample: with `required_skills` present and correctly typed but
`keywords` bound to a number, the claim says `required_skills` is preserved;
the code loses it, returning the all-empty default object. -/
theorem field_atomicity_counterexample :
    ¬ ((parseJobRequirementsData
        [(pyOf "required_skills", Json.arr [Json.str (pyOf "A")]),
         (pyOf "keywords", Json.num 5)]).required_skills = [pyOf "A"]) := by
  decide

/-- C3 amended: the repair step never raises, but it is not field-atomic: a
validation failure on any single declared field degrades the ENTIRE result to
the all-empty default object. -/
theorem single_bad_field_degrades_whole_result (kvs : List (List Char × Json))
    (h : ∃ f ∈ jobRequirementsFields, fieldOk kvs f = false) :
    parseJobRequirementsData kvs = emptyJobRequirements := by
  obtain ⟨f, hf, hbad⟩ := h
  exact parse_all_empty_of_bad_field kvs f hf hbad

/-- Witness for the amended C3. -/
theorem single_bad_field_degrades_whole_result_witness :
    parseJobRequirementsData
      [(pyOf "required_skills", Json.arr [Json.str (pyOf "A")]),
       (pyOf "keywords", Json.num 5)] = emptyJobRequirements :=
  single_bad_field_degrades_whole_result _ ⟨pyOf "keywords", by decide, by decide⟩

/-! ## C2: wrong container type for a list field -/

/-- C2 counterexample: for backend output `Sure! {"keywords": "Python"}` the
claim says the returned `keywords` equals `["Python"]`; the code's Pydantic
validation rejects the bare string, the exception is caught, and the whole
result degrades to `JobRequirements()`, so `keywords` is `[]`. -/
theorem fallback_parse_scenario_b_counterexample :
    ¬ ((jobAnalyzerFallbackParse
        (pyOf "Sure! \x7b\"keywords\": \"Python\"\x7d")).keywords
      = [pyOf "Python"]) := by
  decide

/-- C2 amended: binding a declared list field to a non-list value does not wrap
it as a single-element list; it fails validation of the whole object, so the
result is the all-empty default; in particular, for backend output
`Sure! {"keywords": "Python"}` the fallback returns `JobRequirements()` with
`keywords = []` (and every other field empty). -/
theorem wrong_type_list_field_degrades_all (kvs : List (List Char × Json))
    (f : List Char) (hf : f ∈ jobRequirementsFields)
    (hv : (match dictGet kvs f with
           | some v => !v.isArr
           | none => false) = true) :
    parseJobRequirementsData kvs = emptyJobRequirements
    ∧ jobAnalyzerFallbackParse (pyOf "Sure! \x7b\"keywords\": \"Python\"\x7d")
        = emptyJobRequirements := by
  refine ⟨?_, by decide⟩
  apply parse_all_empty_of_bad_field kvs f hf
  unfold fieldOk
  cases hg : dictGet kvs f with
  | none => rw [hg] at hv; simp at hv
  | some v =>
    rw [hg] at hv
    cases v <;> simp_all [asStrList, Json.isArr]

/-! ## C5: absent fields default, unknown keys ignored -/

/-- C5: for every parsed JSON object: a declared field absent from the object
ends up as its declared empty default `[]` in the returned result, and — for
EVERY object, whether or not any declared field is missing — keys that are not
declared fields are ignored: removing them does not change the result (so they
never cause an error). -/
theorem job_requirements_absent_default_extra_ignored
    (kvs : List (List Char × Json)) (f : List Char) :
    (f ∈ jobRequirementsFields → (dictGet kvs f).isNone = true →
      getJRField (parseJobRequirementsData kvs) f = [])
    ∧ parseJobRequirementsData kvs
        = parseJobRequirementsData
            (kvs.filter (fun p => decide (p.1 ∈ jobRequirementsFields))) := by
  constructor
  · intro hf habs
    have hnone : dictGet kvs f = none := by
      cases hget : dictGet kvs f
      · rfl
      · rw [hget] at habs; simp at habs
    by_cases hall : jobRequirementsFields.all (fieldOk kvs) = true
    · have hp : parseJobRequirementsData kvs
          = { required_skills := fieldVal kvs (pyOf "required_skills")
              preferred_skills := fieldVal kvs (pyOf "preferred_skills")
              required_experience := fieldVal kvs (pyOf "required_experience")
              required_education := fieldVal kvs (pyOf "required_education")
              responsibilities := fieldVal kvs (pyOf "responsibilities")
              keywords := fieldVal kvs (pyOf "keywords") } := by
        simp [parseJobRequirementsData, validateJobRequirements, hall]
      rw [hp, getJRField_build kvs f hf]
      simp [fieldVal, hnone]
    · have hall2 : jobRequirementsFields.all (fieldOk kvs) = false := by
        revert hall; cases jobRequirementsFields.all (fieldOk kvs) <;> simp
      obtain ⟨g, hg, hgbad⟩ := List.all_eq_false.mp hall2
      have hgf : fieldOk kvs g = false := by
        revert hgbad; cases fieldOk kvs g <;> simp
      rw [parse_all_empty_of_bad_field kvs g hg hgf]
      exact getJRField_empty f
  · have hFO : ∀ g ∈ jobRequirementsFields,
        fieldOk (kvs.filter (fun p => decide (p.1 ∈ jobRequirementsFields))) g
          = fieldOk kvs g := by
      intro g hg; unfold fieldOk; rw [dictGet_filter_declared kvs g hg]
    have hFV : ∀ g ∈ jobRequirementsFields,
        fieldVal (kvs.filter (fun p => decide (p.1 ∈ jobRequirementsFields))) g
          = fieldVal kvs g := by
      intro g hg; unfold fieldVal; rw [dictGet_filter_declared kvs g hg]
    have hall3 :
        (jobRequirementsFields.all
          (fieldOk (kvs.filter (fun p => decide (p.1 ∈ jobRequirementsFields)))))
        = jobRequirementsFields.all (fieldOk kvs) := all_congr_mem hFO
    have hveq :
        validateJobRequirements (kvs.filter (fun p => decide (p.1 ∈ jobRequirementsFields)))
        = validateJobRequirements kvs := by
      unfold validateJobRequirements
      rw [hall3]
      by_cases hall : jobRequirementsFields.all (fieldOk kvs) = true
      · rw [if_pos hall, if_pos hall,
          hFV (pyOf "required_skills") (by decide),
          hFV (pyOf "preferred_skills") (by decide),
          hFV (pyOf "required_experience") (by decide),
          hFV (pyOf "required_education") (by decide),
          hFV (pyOf "responsibilities") (by decide),
          hFV (pyOf "keywords") (by decide)]
      · rw [if_neg hall, if_neg hall]
    unfold parseJobRequirementsData
    rw [hveq]

/-! ## Lemmas about substring search -/

/-- A successful `subFind` means the needle leads the tail at that index. -/
theorem leads_of_subFind {sub : List Char} {s : List Char} {k : Nat}
    (h : subFind sub s = some k) : leads sub (s.drop k) = true := by
  induction s generalizing k with
  | nil =>
    unfold subFind at h
    by_cases he : sub.isEmpty = true
    · rw [if_pos he] at h
      obtain rfl : (0 : Nat) = k := Option.some.inj h
      cases sub with
      | nil => rfl
      | cons a as => simp [List.isEmpty] at he
    · rw [if_neg he] at h; cases h
  | cons c rest ih =>
    unfold subFind at h
    by_cases hl : leads sub (c :: rest) = true
    · rw [if_pos hl] at h
      obtain rfl : (0 : Nat) = k := Option.some.inj h
      simpa using hl
    · rw [if_neg hl] at h
      cases hsf : subFind sub rest with
      | none => rw [hsf] at h; cases h
      | some j =>
        rw [hsf] at h
        obtain rfl : j + 1 = k := by simpa using h
        exact ih hsf

/-- If the needle leads some tail of `s`, `subFind` succeeds on `s`. -/
theorem subFind_isSome_of_leads {sub : List Char} {s : List Char} {i : Nat}
    (h : leads sub (s.drop i) = true) : (subFind sub s).isSome = true := by
  induction s generalizing i with
  | nil =>
    have h0 : leads sub [] = true := by simpa using h
    cases sub with
    | nil => simp [subFind, List.isEmpty]
    | cons a as => simp [leads] at h0
  | cons c rest ih =>
    unfold subFind
    by_cases hl : leads sub (c :: rest) = true
    · simp [hl]
    · rw [if_neg hl]
      cases i with
      | zero => rw [List.drop_zero] at h; exact absurd h hl
      | succ j =>
        have h2 : leads sub (rest.drop j) = true := h
        have h3 := ih h2
        simpa using h3

/-- An occurrence found from any start index witnesses a `pyContains`. -/
theorem pyContains_of_subFind_drop {s sub : List Char} {n k : Nat}
    (h : subFind sub (s.drop n) = some k) : pyContains s sub = true := by
  have h1 := leads_of_subFind h
  rw [List.drop_drop] at h1
  exact subFind_isSome_of_leads h1

/-- `leads` is transitive: an initial segment of an initial segment leads. -/
theorem leads_trans {x y z : List Char} (h1 : leads x y = true)
    (h2 : leads y z = true) : leads x z = true := by
  induction x generalizing y z with
  | nil => rfl
  | cons a as ih =>
    cases y with
    | nil => simp [leads] at h1
    | cons b bs =>
      cases z with
      | nil => simp [leads] at h2
      | cons c cs =>
        simp only [leads, Bool.and_eq_true, beq_iff_eq] at h1 h2 ⊢
        exact ⟨h1.1.trans h2.1, ih h1.2 h2.2⟩

/-- Containing a string implies containing any initial segment of it. -/
theorem pyContains_mono {s big small : List Char} (hsmall : leads small big = true)
    (hc : pyContains s big = true) : pyContains s small = true := by
  cases hbf : subFind big s with
  | none => rw [pyContains, hbf] at hc; cases hc
  | some i =>
    have h1 := leads_of_subFind hbf
    exact subFind_isSome_of_leads (leads_trans hsmall h1)

/-! ## C6: the think-tag removal step -/

/-- C6 counterexample: the claim says the step concatenates exactly the text
before the span and the text after it, predicting `"a" ++ " b" = "a b"`;
the code additionally strips the trailing part and returns `"ab"`. -/
theorem strip_think_counterexample :
    ¬ (stripThink (pyOf "a<think>x</think> b") = pyOf "a" ++ pyOf " b") := by
  decide

/-- C6 amended: when the first opening marker sits at index `|pre|` and the
first closing marker from there ends the middle span, the step deletes the span
and concatenates the prefix with the WHITESPACE-STRIPPED remainder; when either
marker is absent the step is the identity; and the step runs before fence
extraction and brace slicing inside the cleaner. -/
theorem strip_think_spec :
    (∀ pre mid post : List Char,
      subFind thinkOpen (pre ++ thinkOpen ++ mid ++ thinkClose ++ post)
          = some pre.length →
      pyFindFromI (pre ++ thinkOpen ++ mid ++ thinkClose ++ post) thinkClose
          pre.length = ((pre.length + 7 + mid.length : Nat) : Int) →
      stripThink (pre ++ thinkOpen ++ mid ++ thinkClose ++ post)
          = pre ++ pyStrip post)
    ∧ (∀ s : List Char,
        (pyContains s thinkOpen && pyContains s thinkClose) = false →
        stripThink s = s)
    ∧ (∀ raw : List Char,
        preprocessLlmResponse raw
          = pyStrip (sliceBraces (extractFence (stripThink (pyStrip raw))))) := by
  refine ⟨?_, ?_, fun raw => rfl⟩
  · intro pre mid post h1 h2
    set s := pre ++ thinkOpen ++ mid ++ thinkClose ++ post with hs
    have hopen : pyContains s thinkOpen = true := by
      rw [pyContains, h1]; rfl
    obtain ⟨k, hk⟩ : ∃ k, subFind thinkClose (s.drop pre.length) = some k := by
      cases hsf : subFind thinkClose (s.drop pre.length) with
      | none =>
        exfalso
        unfold pyFindFromI at h2
        rw [hsf] at h2
        have h3 : (-1 : Int) = ((pre.length + 7 + mid.length : Nat) : Int) := h2
        omega
      | some k => exact ⟨k, rfl⟩
    have hclose : pyContains s thinkClose = true := pyContains_of_subFind_drop hk
    have hfromI : pyFindFromI s thinkClose pre.length
        = ((pre.length + 7 + mid.length : Nat) : Int) := h2
    have hstep : stripThink s
        = s.take pre.length
          ++ pyStrip (s.drop ((((pre.length + 7 + mid.length : Nat) : Int) + 8).toNat)) := by
      unfold stripThink
      rw [hopen, hclose]
      simp only [Bool.and_self, if_true, h1, Option.getD_some, hfromI]
    have htoNat : ((((pre.length + 7 + mid.length : Nat) : Int) + 8).toNat)
        = pre.length + 7 + mid.length + 8 := by omega
    have h7 : thinkOpen.length = 7 := rfl
    have h8 : thinkClose.length = 8 := rfl
    have htake : s.take pre.length = pre := by
      have hassoc : s = pre ++ (thinkOpen ++ mid ++ thinkClose ++ post) := by
        simp [hs, List.append_assoc]
      rw [hassoc, List.take_left]
    have hdrop : s.drop (pre.length + 7 + mid.length + 8) = post := by
      have hassoc : s = (pre ++ thinkOpen ++ mid ++ thinkClose) ++ post := by
        simp [hs, List.append_assoc]
      rw [hassoc]
      apply List.drop_left'
      simp only [List.length_append, h7, h8]
    rw [hstep, htoNat, htake, hdrop]
  · intro s h
    unfold stripThink
    rw [h]
    rfl

/-- Witness for the amended C6: a span removal with whitespace stripping, and
the identity on marker-free text. -/
theorem strip_think_spec_witness :
    stripThink (pyOf "Hello " ++ thinkOpen ++ pyOf "hidden" ++ thinkClose
        ++ pyOf "  result")
      = pyOf "Hello " ++ pyStrip (pyOf "  result")
    ∧ stripThink (pyOf "no markers here") = pyOf "no markers here" :=
  ⟨strip_think_spec.1 (pyOf "Hello ") (pyOf "hidden") (pyOf "  result")
    (by decide) (by decide),
   strip_think_spec.2.1 (pyOf "no markers here") (by decide)⟩

/-! ## C7: idempotence of the cleaner -/

/-- C7 counterexample: the claim's universal form `clean (clean s) = clean s`
fails: with two sentinel spans, the first cleaning removes only the first span
and leaves a string that the second cleaning changes again. -/
theorem clean_not_idempotent_counterexample :
    ¬ (preprocessLlmResponse
        (preprocessLlmResponse (pyOf "<think>a</think><think>b</think>"))
      = preprocessLlmResponse (pyOf "<think>a</think><think>b</think>")) := by
  decide

/-- C7 amended: the cleaner does return every already-clean input unchanged: a
trimmed string with no sentinel markers and no code fences that starts with an
opening brace and ends with a closing brace is a fixed point. (The claimed
equivalence with `clean (clean s) = clean s` for every `s` does not hold.) -/
theorem preprocess_clean_json_unchanged (s : List Char)
    (hstrip : pyStrip s = s)
    (hthink : pyContains s thinkOpen = false)
    (hfence : pyContains s fence = false)
    (hhead : s.head? = some '{')
    (hlast : s.getLast? = some '}') :
    preprocessLlmResponse s = s := by
  have hfj : pyContains s fenceJson = false := by
    cases hcf : pyContains s fenceJson
    · rfl
    · have h2 := pyContains_mono (by decide : leads fence fenceJson = true) hcf
      rw [hfence] at h2; cases h2
  have hthinkstep : stripThink s = s := by
    unfold stripThink
    rw [hthink]
    rfl
  have hfencestep : extractFence s = s := by
    unfold extractFence
    rw [hfj, hfence]
    rfl
  have hslice : sliceBraces s = s := by
    cases s with
    | nil => simp at hhead
    | cons c cs =>
      have hc : c = '{' := by simpa using hhead
      subst hc
      have hjs : pyFindCharI ('{' :: cs) '{' = 0 := by
        unfold pyFindCharI findCharIdx
        simp
      cases hrev2 : ('{' :: cs).reverse with
      | nil => simp at hrev2
      | cons d ds =>
        have hrev : ('{' :: cs).reverse.head? = some '}' := by
          rw [List.head?_reverse]; exact hlast
        have hd : d = '}' := by rw [hrev2] at hrev; simpa using hrev
        subst hd
        have hje : pyRFindCharI ('{' :: cs) '}' = ((('{' :: cs).length : Int)) - 1 := by
          unfold pyRFindCharI
          rw [hrev2]
          simp [findCharIdx]
        unfold sliceBraces braceSpan
        rw [hjs, hje]
        have hlen : ('{' :: cs).length = cs.length + 1 := rfl
        have hcond : (0 : Int) ≥ 0 ∧ ((('{' :: cs).length : Int) - 1 + 1) > 0 := by
          constructor
          · omega
          · omega
        rw [if_pos hcond]
        have hn : (((('{' :: cs).length : Int) - 1 + 1)).toNat = ('{' :: cs).length := by
          omega
        simp [hn]
  unfold preprocessLlmResponse
  rw [hstrip, hthinkstep, hfencestep, hslice, hstrip]

/-- Witness for the amended C7 at a concrete clean JSON object string. -/
theorem preprocess_clean_json_unchanged_witness :
    preprocessLlmResponse (pyOf "\x7b\"a\": 1\x7d") = pyOf "\x7b\"a\": 1\x7d" :=
  preprocess_clean_json_unchanged _ (by decide) (by decide) (by decide)
    (by decide) (by decide)

/-! ## C1: exception safety of the extraction entry points -/

/-- C1 (evaluation of the code at the failing input): with prose backend
responses containing no JSON braces, `identify_sections` does not return a
result object at all: both fallback branches call the undefined method
`_basic_section_identification`, and the `AttributeError` raised inside the
except handler propagates to the caller after two backend invocations. -/
theorem identify_sections_raises_attribute_error :
    identifySections (pyOf "Some resume text") (pyOf "I cannot help with that.")
        (pyOf "Sorry, there is no structured data here.")
      = (.error .attributeError, 2) := by
  rfl

/-- Witness for the amended C2. -/
theorem wrong_type_list_field_degrades_all_witness :
    parseJobRequirementsData [(pyOf "keywords", Json.str (pyOf "Python"))]
        = emptyJobRequirements
    ∧ jobAnalyzerFallbackParse (pyOf "Sure! \x7b\"keywords\": \"Python\"\x7d")
        = emptyJobRequirements :=
  wrong_type_list_field_degrades_all _ (pyOf "keywords") (by decide) (by decide)

/-- Witness for C5: the absent-field conjunct at an object missing
`required_skills` (hypotheses discharged concretely), and the extras-ignored
conjunct at a fully-populated object carrying all six declared fields plus an
undeclared extra key. -/
theorem job_requirements_absent_default_extra_ignored_witness :
    getJRField
        (parseJobRequirementsData
          [(pyOf "keywords", Json.arr [Json.str (pyOf "Python")]),
           (pyOf "bogus", Json.num 1)])
        (pyOf "required_skills") = []
    ∧ parseJobRequirementsData
          [(pyOf "required_skills", Json.arr [Json.str (pyOf "A")]),
           (pyOf "preferred_skills", Json.arr []),
           (pyOf "required_experience", Json.arr []),
           (pyOf "required_education", Json.arr []),
           (pyOf "responsibilities", Json.arr []),
           (pyOf "keywords", Json.arr [Json.str (pyOf "Python")]),
           (pyOf "bogus", Json.num 1)]
        = parseJobRequirementsData
            (([(pyOf "required_skills", Json.arr [Json.str (pyOf "A")]),
               (pyOf "preferred_skills", Json.arr []),
               (pyOf "required_experience", Json.arr []),
               (pyOf "required_education", Json.arr []),
               (pyOf "responsibilities", Json.arr []),
               (pyOf "keywords", Json.arr [Json.str (pyOf "Python")]),
               (pyOf "bogus", Json.num 1)]).filter
              (fun p => decide (p.1 ∈ jobRequirementsFields))) :=
  ⟨(job_requirements_absent_default_extra_ignored
      [(pyOf "keywords", Json.arr [Json.str (pyOf "Python")]),
       (pyOf "bogus", Json.num 1)]
      (pyOf "required_skills")).1 (by decide) (by decide),
   (job_requirements_absent_default_extra_ignored
      [(pyOf "required_skills", Json.arr [Json.str (pyOf "A")]),
       (pyOf "preferred_skills", Json.arr []),
       (pyOf "required_experience", Json.arr []),
       (pyOf "required_education", Json.arr []),
       (pyOf "responsibilities", Json.arr []),
       (pyOf "keywords", Json.arr [Json.str (pyOf "Python")]),
       (pyOf "bogus", Json.num 1)]
      (pyOf "keywords")).2⟩

end ResumeHelper
